import Mathlib

/-!
Verification development for the Beyond-Chat-Blogs content-enhancement
pipeline. The definitions below are a shallow embedding of the Node batch
orchestrator (`node-script/processAll.js`), the LLM enhancer service
(`node-script/services/llmEnhancer.js`, Groq version) and the discovery
filter (`node-script/services/googleSearcher.js`). External collaborators
(the HTTP store, the search provider, the generative service, the WHATWG
URL parser and `JSON.parse`) are modelled as explicit oracle parameters;
repository code is translated function by function. JavaScript strings are
modelled as `String` (lists of `Char`); `""` models a missing / `null` /
`undefined` string field, matching JavaScript falsiness for the places the
code tests truthiness.
-/

namespace BeyondChats

/-! ## JavaScript string primitives

The JS runtime string operations used by the repository, modelled on
`List Char`. Helpers that the code only uses for presentation are given a
fuel argument (fuel := length of the input) so that they are structurally
recursive; the fuel never runs out on any input because every step
consumes at least one character. -/

/-- Whitespace class of the JavaScript `\s` regex (ASCII part). -/
def isJsSpace (c : Char) : Bool :=
  c = ' ' || c = '\t' || c = '\n' || c = '\r' || c = '\x0b' || c = '\x0c'

/-- Model of `s.trim()`: drop leading and trailing whitespace. -/
def jsTrim (l : List Char) : List Char :=
  ((l.dropWhile isJsSpace).reverse.dropWhile isJsSpace).reverse

/-- Model of `s.toLowerCase()`: character-wise lowercasing. -/
def jsLower (s : String) : String :=
  ⟨s.data.map Char.toLower⟩

/-- Model of `s.includes(pattern)`: substring containment. -/
def jsIncludes (s pat : String) : Bool :=
  decide (pat.data <:+: s.data)

/-- Model of `s.substring(0, n)`. -/
def jsTake (s : String) (n : Nat) : String :=
  ⟨s.data.take n⟩

/-- Fuel-bounded removal of every non-overlapping occurrence of `pat`,
scanning left to right: the model of `s.replace(/pat/g, "")` for a literal
pattern. -/
def removeAllFuel (pat : List Char) : Nat → List Char → List Char
  | 0, l => l
  | _ + 1, [] => []
  | fuel + 1, c :: rest =>
    if pat ≠ [] ∧ pat <+: (c :: rest) then
      removeAllFuel pat fuel ((c :: rest).drop pat.length)
    else
      c :: removeAllFuel pat fuel rest

/-- Remove every occurrence of `pat` from `l`. -/
def removeAll (pat l : List Char) : List Char :=
  removeAllFuel pat l.length l

/-- Fuel-bounded model of `html.replace(/<[^>]*>/g, " ")`: a `<` that is
followed (anywhere later) by a `>` is removed together with everything up
to that `>` and replaced by one space; a `<` with no closing `>` is kept
verbatim, as the regex then has no match. -/
def removeTagsFuel : Nat → List Char → List Char
  | 0, l => l
  | _ + 1, [] => []
  | fuel + 1, c :: rest =>
    if c = '<' then
      match rest.dropWhile (fun d => d ≠ '>') with
      | '>' :: after => ' ' :: removeTagsFuel fuel after
      | _ => c :: removeTagsFuel fuel rest
    else
      c :: removeTagsFuel fuel rest

/-- Fuel-bounded model of `s.replace(/\s+/g, " ")`: collapse every maximal
whitespace run to a single space. -/
def collapseWsFuel : Nat → List Char → List Char
  | 0, l => l
  | _ + 1, [] => []
  | fuel + 1, c :: rest =>
    if isJsSpace c then
      ' ' :: collapseWsFuel fuel (rest.dropWhile isJsSpace)
    else
      c :: collapseWsFuel fuel rest

/-! ## Data model

Records exchanged between the pipeline stages, following the shapes the
JavaScript builds (`processAll.js`, `googleSearcher.js`,
`contentScraper.js`). -/

/-- An article as stored by the Laravel API. `original_url = ""` models an
absent (null) original URL, which is falsy in JavaScript. -/
structure Article where
  title : String
  content : String
  excerpt : String
  author : String
  published_at : String
  featured_image : String
  original_url : String
  deriving DecidableEq, Repr

/-- A search hit as returned by the SerpAPI provider
(`organic_results[i]`): `snippet` may be absent. -/
structure RawResult where
  title : String
  link : String
  snippet : Option String
  deriving DecidableEq, Repr

/-- A competitor candidate produced by `searchRelatedArticles`. -/
structure Candidate where
  title : String
  url : String
  snippet : String
  deriving DecidableEq, Repr

/-- A scraped competitor document produced by `scrapeMultipleArticles`:
the candidate fields spread together with the extracted content. `""`
models an absent field. -/
structure CompetitorDoc where
  title : String
  url : String
  snippet : String
  content : String
  htmlContent : String
  excerpt : String
  image_url : String
  deriving DecidableEq, Repr

/-- The shape of a parsed gap-analysis JSON object: each of the six named
fields may be absent (`none`). -/
structure AnalysisJson where
  missing : Option (List String)
  improve : Option (List String)
  strengths : Option (List String)
  keywords_missing : Option (List String)
  overall_score : Option Int
  recommendations : Option (List String)
  deriving DecidableEq, Repr

/-- The record `performGapAnalysis` returns. `error = none` in the success
branch; the catch branch attaches the caught message. -/
structure GapResult where
  missing : List String
  improve : List String
  strengths : List String
  keywords_missing : List String
  overall_score : Int
  recommendations : List String
  error : Option String
  deriving DecidableEq, Repr

/-- A competitor reference as embedded in the publish payload. -/
structure CompetitorRef where
  source_url : String
  title : String
  content_summary : String
  deriving DecidableEq, Repr

/-- The enhanced-article payload posted to the store by `publishArticle`. -/
structure Payload where
  title : String
  content : String
  excerpt : String
  author : String
  published_at : String
  featured_image : String
  original_url : String
  status : String
  references : List String
  gap_analysis : GapResult
  competitor_articles : List CompetitorRef
  deriving DecidableEq, Repr

/-- The store response to a publish: the created article id. -/
structure PubResponse where
  id : Nat
  deriving DecidableEq, Repr

/-- The value `processArticle` resolves with: a success flag and, on
failure, the reason string. -/
structure ProcResult where
  success : Bool
  reason : String
  deriving DecidableEq, Repr

/-- The result of `enhanceArticle`: generated HTML body and a title. -/
structure EnhancedResult where
  content : String
  title : String
  deriving DecidableEq, Repr

/-! ## llmEnhancer.js (Groq version) -/

/-- The message of the error `initializeClient` throws. -/
def groqKeyError : String :=
  "GROQ_API_KEY is not set. Get a free key at https://console.groq.com/keys"

/-- Model of `initializeClient`: throws when `GROQ_API_KEY` is unset
(`none`), empty (falsy) or the documented placeholder value. -/
def initializeClient (key : Option String) : Except String Unit :=
  match key with
  | none => Except.error groqKeyError
  | some k =>
    if k = "" ∨ k = "your_groq_api_key_here" then Except.error groqKeyError
    else Except.ok ()

/-- Model of `x || defaultString` for a possibly absent string: `none` and
`""` are falsy. -/
def jsOrString (v : Option String) (d : String) : String :=
  match v with
  | none => d
  | some s => if s = "" then d else s

/-- Model of `analysis.field || []` for a possibly absent list field: only
absence defaults, a present empty array is truthy in JavaScript. -/
def jsOrList (v : Option (List String)) : List String :=
  v.getD []

/-- Model of `analysis.overall_score || d`: absence and the (falsy) score
`0` both default to `d`. -/
def jsOrScore (v : Option Int) (d : Int) : Int :=
  match v with
  | none => d
  | some x => if x = 0 then d else x

/-- Model of the markdown code-fence cleanup in `performGapAnalysis`:
`analysisText.replace(/```json\n?/g, "").replace(/```\n?/g, "").trim()`,
with each optional-newline regex rendered as two literal removals. -/
def cleanLLMJson (s : String) : String :=
  ⟨jsTrim (removeAll "```".data (removeAll "```\n".data
    (removeAll "```json".data (removeAll "```json\n".data s.data))))⟩

/-- The default structure the catch branch of `performGapAnalysis` returns,
with the caught error message attached. -/
def gapDefaultResult (msg : String) : GapResult :=
  { missing := ["Unable to analyze - please check API key"]
    improve := []
    strengths := []
    keywords_missing := []
    overall_score := 0
    recommendations := []
    error := some msg }

/-- The success-branch record of `performGapAnalysis`: each field of the
parsed object defaulted JavaScript-style (`|| []`, `|| 5`). -/
def gapSuccessResult (a : AnalysisJson) : GapResult :=
  { missing := jsOrList a.missing
    improve := jsOrList a.improve
    strengths := jsOrList a.strengths
    keywords_missing := jsOrList a.keywords_missing
    overall_score := jsOrScore a.overall_score 5
    recommendations := jsOrList a.recommendations
    error := none }

/-- Model of `performGapAnalysis`. `llm` is the outcome of the chat
completion round trip, already defaulted by `|| "{}"` on a missing
message; `parse` is the `JSON.parse` oracle, whose failure carries the
thrown message. `initializeClient` runs before the try block, so its error
propagates; every error inside the try block is caught and converted to
the default structure. -/
def performGapAnalysis (key : Option String) (llm : Except String String)
    (parse : String → Except String AnalysisJson) :
    Except String GapResult :=
  match initializeClient key with
  | Except.error e => Except.error e
  | Except.ok _ =>
    match llm with
    | Except.error e => Except.ok (gapDefaultResult e)
    | Except.ok raw =>
      match parse (cleanLLMJson raw) with
      | Except.error e => Except.ok (gapDefaultResult e)
      | Except.ok a => Except.ok (gapSuccessResult a)

/-! Model of `stripHtml` and `extractTitle` (used for the enhanced title). -/

/-- Model of `stripHtml`: strip tags, collapse whitespace, trim. -/
def stripHtml (html : String) : String :=
  ⟨jsTrim (collapseWsFuel
    (removeTagsFuel html.data.length html.data).length
    (removeTagsFuel html.data.length html.data))⟩

/-- Does the list start with a case-insensitive `</h1>` close tag? -/
def closeH1At (l : List Char) : Bool :=
  match l with
  | '<' :: '/' :: h :: '1' :: '>' :: _ => h = 'h' || h = 'H'
  | _ => false

/-- Lazy capture of the regex group `(.*?)` before `</h1>`: the shortest
run of non-newline characters followed by the close tag. -/
def h1Content : List Char → Option (List Char)
  | [] => none
  | c :: rest =>
    if closeH1At (c :: rest) then some []
    else if c = '\n' then none
    else (h1Content rest).map (c :: ·)

/-- Match `<h1[^>]*>` at the head of the attribute part: skip non-`>`
characters, then require the `>`. -/
def skipTagAttrs (l : List Char) : Option (List Char) :=
  match l.dropWhile (fun d => d ≠ '>') with
  | '>' :: after => some after
  | _ => none

/-- Try to match the whole regex `<h1[^>]*>(.*?)<\/h1>/i` at the head of
the list, returning the captured group. -/
def matchH1At (l : List Char) : Option (List Char) :=
  match l with
  | '<' :: h :: '1' :: rest =>
    if h = 'h' || h = 'H' then (skipTagAttrs rest).bind h1Content
    else none
  | _ => none

/-- Leftmost-match search for the title regex. -/
def extractTitleAux : List Char → Option (List Char)
  | [] => none
  | c :: rest =>
    match matchH1At (c :: rest) with
    | some captured => some captured
    | none => extractTitleAux rest

/-- Model of `extractTitle`: first `<h1>⋯</h1>` content, tags stripped;
`none` models the `null` of a failed match. -/
def extractTitle (html : String) : Option String :=
  (extractTitleAux html.data).map (fun captured => stripHtml ⟨captured⟩)

/-- Model of `enhanceArticle`. `llm` is the outcome of the chat completion,
already defaulted by `|| ""` on a missing message. The client is
initialized first (its configuration error propagates); a failed chat call
is caught, logged and rethrown, so it also propagates. On success the LLM
output is passed through unmodified as `content`, and the title falls back
to `"Enhanced: " ++ title` when no `<h1>` is found (or its content strips
to the empty, falsy string). -/
def enhanceArticle (key : Option String) (llm : Except String String)
    (article : Article) : Except String EnhancedResult :=
  match initializeClient key with
  | Except.error e => Except.error e
  | Except.ok _ =>
    match llm with
    | Except.error e => Except.error e
    | Except.ok enhancedContent =>
      Except.ok
        { content := enhancedContent
          title := jsOrString (extractTitle enhancedContent)
            ("Enhanced: " ++ article.title) }

/-! ## googleSearcher.js -/

/-- The exclusion list of `isBlogOrArticle`: known non-article
domains/paths. -/
def excludePatterns : List String :=
  ["youtube.com", "youtu.be",
   "twitter.com", "x.com",
   "facebook.com", "instagram.com",
   "linkedin.com/company", "linkedin.com/in/",
   ".pdf", ".doc", ".ppt",
   "wikipedia.org",
   "/login", "/signup", "/register",
   "/shop", "/product", "/cart",
   "amazon.com", "ebay.com"]

/-- The inclusion list of `isBlogOrArticle`: article-shaped path
segments. -/
def includePatterns : List String :=
  ["/blog", "/article", "/post", "/news",
   "/guide", "/how-to", "/tutorial",
   "/insights", "/resources", "/learn"]

/-- Title keywords `isBlogOrArticle` accepts as article-like. -/
def articleKeywords : List String :=
  ["how to", "guide", "tips", "ways", "best", "top", "complete"]

/-- Model of `s.endsWith(t)`. -/
def jsEndsWith (s t : String) : Bool :=
  decide (t.data <:+ s.data)

/-- Model of `s.split(sep)` for a one-character separator. -/
def jsSplitOn (sep : Char) : List Char → List (List Char)
  | [] => [[]]
  | c :: rest =>
    let r := jsSplitOn sep rest
    if c = sep then [] :: r
    else
      match r with
      | h :: t => (c :: h) :: t
      | [] => [[c]]

/-- Model of `isBlogOrArticle(url, title)`: reject exclusion patterns,
accept article-shaped paths or listicle/how-to titles, and otherwise
default-accept unless the URL is a short bare root path. -/
def isBlogOrArticle (url : String) (title : String := "") : Bool :=
  let lowerUrl := jsLower url
  let lowerTitle := jsLower title
  if excludePatterns.any (fun pat => jsIncludes lowerUrl pat) then false
  else if includePatterns.any (fun pat => jsIncludes lowerUrl pat) then true
  else if articleKeywords.any (fun kw => jsIncludes lowerTitle kw) then true
  else !(jsEndsWith lowerUrl "/") || (jsSplitOn '/' lowerUrl.data).length > 4

/-- Model of the result pipeline of `searchWithSerpAPI` applied to the
provider response list: keep blog/article hits, drop the pipeline owner's
own domain, truncate to `count`, and shape each hit into a candidate with
`snippet || ""`. -/
def serpFilterResults (results : List RawResult) (count : Nat) :
    List Candidate :=
  (((results.filter (fun r => isBlogOrArticle r.link r.title)).filter
      (fun r => !(jsIncludes (jsLower r.link) "beyondchats.com"))).take
    count).map
    (fun r => { title := r.title, url := r.link, snippet := r.snippet.getD "" })

/-! ## processAll.js -/

/-- Model of `c.snippet || c.excerpt || "Read the full article to learn
more."` in `generateCitations`. -/
def citationSnippet (c : CompetitorDoc) : String :=
  if c.snippet ≠ "" then c.snippet
  else if c.excerpt ≠ "" then c.excerpt
  else "Read the full article to learn more."

/-- One citation card of `generateCitations`, given the hostname the URL
constructor produced for `c.url`. The template string is reproduced with
its interpolations. -/
def citationCardHtml (c : CompetitorDoc) (hostname : String) : String :=
  let snippet := citationSnippet c
  let cleanSnippet :=
    if snippet.length > 120 then jsTake snippet 120 ++ "..." else snippet
  let imageHtml :=
    if c.image_url ≠ "" then
      "<img src=\"" ++ c.image_url ++ "\" alt=\"" ++ c.title ++
        "\" loading=\"lazy\" onerror=\"this.style.display=\x27none\x27;this.parentElement.querySelector(\x27.related-image-placeholder\x27).style.display=\x27flex\x27\">\n                   <div class=\"related-image-placeholder\" style=\"display:none\">" ++
        c.title ++ "</div>"
    else
      "<div class=\"related-image-placeholder\">" ++ c.title ++ "</div>"
  "\n    <a href=\"" ++ c.url ++
    "\" target=\"_blank\" rel=\"noopener\" class=\"related-article-card\">\n        <div class=\"related-image\">\n            " ++
    imageHtml ++
    "</div>\n        <div style=\"padding: 1rem;\">\n            <h3>" ++
    c.title ++ "</h3>\n            <div class=\"related-meta\">Source: " ++
    hostname ++ "</div>\n            <p class=\"related-excerpt\">" ++
    cleanSnippet ++ "</p>\n        </div>\n    </a>"

/-- One card per competitor: `new URL(c.url).hostname` is the `parse`
oracle and a parse failure is the thrown `TypeError`. -/
def citationCard (parse : String → Option String) (c : CompetitorDoc) :
    Option String :=
  (parse c.url).map (citationCardHtml c)

/-- The surrounding section markup of `generateCitations`, around the
joined cards. `first` is `competitors[0]`, used by the see-more button. -/
def citationSectionHtml (cards : List String) (first : CompetitorDoc) :
    String :=
  "\n<section class=\"related-articles-section\">\n  <h2>Reference Articles</h2>\n  <p class=\"section-subtitle\">These articles were analyzed by our AI to enhance the content above</p>\n  <div class=\"related-articles-grid\">\n    " ++
    String.intercalate "\n" cards ++
    "\n  </div>\n  <button class=\"see-more-btn\" onclick=\"window.open(\x27" ++
    first.url ++
    "\x27, \x27_blank\x27)\">See more recommendations</button>\n</section>"

/-- Model of `generateCitations(competitors)`: the empty string for an
empty list; otherwise one card per competitor, `none` modelling the
`TypeError` thrown by `new URL` on the first malformed URL. -/
def generateCitations (parse : String → Option String)
    (competitors : List CompetitorDoc) : Option String :=
  match competitors with
  | [] => some ""
  | first :: _ =>
    (competitors.mapM (citationCard parse)).map
      (fun cards => citationSectionHtml cards first)

/-- The external collaborators of one `processArticle` call, as oracle
values: the search and scrape round trips, the Groq credential, the two
chat-completion outcomes, the `JSON.parse` and `new URL` behaviours and
the publish round trip. -/
structure PipelineEnv where
  groqKey : Option String
  search : String → List Candidate
  scrape : List Candidate → List CompetitorDoc
  gapLLM : Except String String
  gapParse : String → Except String AnalysisJson
  enhanceLLM : Except String String
  parseURL : String → Option String
  publish : Payload → Except String PubResponse

/-- Model of `c.excerpt || c.content?.substring(0, 300)` in the
`competitor_articles` payload mapping. -/
def competitorSummary (c : CompetitorDoc) : String :=
  if c.excerpt ≠ "" then c.excerpt else jsTake c.content 300

/-- The publish payload `processArticle` assembles. -/
def buildPayload (article : Article) (enhanced : EnhancedResult)
    (gapAnalysis : GapResult) (competitorArticles : List CompetitorDoc)
    (citationHtml : String) : Payload :=
  { title := enhanced.title
    content := enhanced.content ++ citationHtml
    excerpt := article.excerpt
    author := article.author
    published_at := article.published_at
    featured_image := article.featured_image
    original_url := article.original_url
    status := "updated"
    references := competitorArticles.map (fun c => c.url)
    gap_analysis := gapAnalysis
    competitor_articles := competitorArticles.map
      (fun c => { source_url := c.url, title := c.title,
                  content_summary := competitorSummary c }) }

/-- Model of `processArticle(article, ...)`: the two no-viable-input early
returns, then gap analysis, enhancement, citation assembly and publish;
the enclosing try/catch converts every thrown error into a failure result
carrying the error message. -/
def processArticle (env : PipelineEnv) (article : Article) : ProcResult :=
  let body : Except String ProcResult := do
    let searchResults := env.search article.title
    if searchResults.length = 0 then
      pure { success := false, reason := "No competitors found" }
    else
      let competitorArticles := env.scrape searchResults
      if competitorArticles.length = 0 then
        pure { success := false, reason := "Scraping failed" }
      else do
        let gapAnalysis ←
          performGapAnalysis env.groqKey env.gapLLM env.gapParse
        let enhanced ← enhanceArticle env.groqKey env.enhanceLLM article
        let citationHtml ←
          match generateCitations env.parseURL competitorArticles with
          | some s => pure s
          | none => Except.error "Invalid URL"
        let payload :=
          buildPayload article enhanced gapAnalysis competitorArticles
            citationHtml
        let _ ← env.publish payload
        pure { success := true, reason := "" }
  match body with
  | Except.ok r => r
  | Except.error e => { success := false, reason := e }

/-- Model of `articles[i].title` in the failure push of `main`: the title
looked up in the unfiltered list at the loop index. -/
def titleAt (articles : List Article) (i : Nat) : String :=
  ((articles.get? i).map Article.title).getD ""

/-- The mutable accumulator of the loop in `main`. -/
structure RunState where
  success : Nat
  failed : Nat
  errors : List (String × String)
  published : List String
  processedCount : Nat
  deriving DecidableEq, Repr

/-- The initial accumulator of a run. -/
def initialRunState : RunState :=
  { success := 0, failed := 0, errors := [], published := [],
    processedCount := 0 }

/-- Model of the processing loop of `main` over `articlesToProcess`:
each iteration classifies the item as success or failure, pushes
`(articles[i].title, reason)` on failure, and breaks once ten items have
succeeded. `published` collects the `original_url` of each payload posted
by a successful `processArticle` (the payload carries the source item's
`original_url`). -/
def mainLoop (proc : Article → ProcResult) (articles : List Article) :
    List Article → Nat → RunState → RunState
  | [], _, st => st
  | a :: rest, i, st =>
    let r := proc a
    let st' :=
      if r.success then
        { st with
          success := st.success + 1
          published := st.published ++ [a.original_url]
          processedCount := st.processedCount + 1 }
      else
        { st with
          failed := st.failed + 1
          errors := st.errors ++ [(titleAt articles i, r.reason)]
          processedCount := st.processedCount + 1 }
    if st'.success ≥ 10 then st'
    else mainLoop proc articles rest (i + 1) st'

/-- Model of the dedup set computed in `main`: the `original_url` of every
fetched already-enhanced article, truthy values only. -/
def dedupUrls (enhanced : List Article) : List String :=
  (enhanced.filter (fun a => a.original_url ≠ "")).map Article.original_url

/-- Model of the dedup filter of `main`.
`enhancedFetch = none` models a failed fetch of already-enhanced articles,
after which the run proceeds with an empty dedup set. -/
def articlesToProcess (articles : List Article)
    (enhancedFetch : Option (List Article)) : List Article :=
  let urls := match enhancedFetch with
    | none => []
    | some l => dedupUrls l
  articles.filter (fun a => !(urls.contains a.original_url))

/-- The summary a completed run yields. -/
structure RunSummary where
  success : Nat
  failed : Nat
  skipped : Nat
  errors : List (String × String)
  published : List String
  processedCount : Nat
  deriving DecidableEq, Repr

/-- Number of items a run considered: the dedup-skipped ones plus the ones
the loop actually attempted (an early cap stop leaves the rest
unconsidered). -/
def RunSummary.considered (s : RunSummary) : Nat :=
  s.skipped + s.processedCount

/-- Model of `main` after the initial fetches: dedup-filter the originals,
count the filtered-out ones as skipped, then run the loop. -/
def runMain (proc : Article → ProcResult) (articles : List Article)
    (enhancedFetch : Option (List Article)) : RunSummary :=
  let toProcess := articlesToProcess articles enhancedFetch
  let st := mainLoop proc articles toProcess 0 initialRunState
  { success := st.success
    failed := st.failed
    skipped := articles.length - toProcess.length
    errors := st.errors
    published := st.published
    processedCount := st.processedCount }

/-! ## Addition markers

The enhancement prompt (llmEnhancer.js, section HIGHLIGHTING) makes the
generator wrap exactly the inserted paragraphs in `<mark>` tags. The
following definitions express the content-preservation property of the
spec: a serializer for a generator output that only inserts marked
paragraphs between original fragments, and the marker-stripping operation
the property applies to that output. -/

/-- The opening addition marker `<mark>` as characters. -/
def markerOpen : List Char := ['<', 'm', 'a', 'r', 'k', '>']

/-- The closing addition marker `</mark>` as characters. -/
def markerClose : List Char := ['<', '/', 'm', 'a', 'r', 'k', '>']

mutual
/-- Strip every addition-marker segment: copy characters until an opening
marker starts, then skip the segment. -/
def stripAdditions : List Char → List Char
  | [] => []
  | c :: rest =>
    if markerOpen <+: (c :: rest) then skipAddition ((c :: rest).drop 6)
    else c :: stripAdditions rest
termination_by l => l.length
decreasing_by
  all_goals simp [List.length_drop]
  all_goals omega
/-- Inside an addition segment, drop characters until `</mark>` closes
it. -/
def skipAddition : List Char → List Char
  | [] => []
  | c :: rest =>
    if markerClose <+: (c :: rest) then stripAdditions ((c :: rest).drop 7)
    else skipAddition rest
termination_by l => l.length
decreasing_by
  all_goals simp [List.length_drop]
  all_goals omega
end

/-- Serialization of a generator output that only inserts marked
paragraphs between fragments of the original body: each pair contributes
an original fragment followed by one wrapped insertion, and `final` is
the trailing original fragment. -/
def renderInserted : List (List Char × List Char) → List Char → List Char
  | [], final => final
  | (p, a) :: rest, final =>
    p ++ markerOpen ++ a ++ markerClose ++ renderInserted rest final

/-- The original body of such an output: the fragments alone,
concatenated. -/
def renderBody (parts : List (List Char × List Char)) (final : List Char) :
    List Char :=
  (parts.map Prod.fst).flatten ++ final

/-! ## Loop accumulator updates -/

/-- The accumulator update of a successful iteration. -/
def stepSucc (a : Article) (st : RunState) : RunState :=
  { st with
    success := st.success + 1
    published := st.published ++ [a.original_url]
    processedCount := st.processedCount + 1 }

/-- The accumulator update of an unsuccessful iteration. -/
def stepFail (proc : Article → ProcResult) (arts : List Article)
    (a : Article) (i : Nat) (st : RunState) : RunState :=
  { st with
    failed := st.failed + 1
    errors := st.errors ++ [(titleAt arts i, (proc a).reason)]
    processedCount := st.processedCount + 1 }

/-! ## Concrete instances used by counterexamples and witnesses -/

/-- A processing oracle that succeeds on every item. -/
def procAlwaysOk : Article → ProcResult :=
  fun _ => { success := true, reason := "" }

/-- A processing oracle that fails every item with a publish-style
error. -/
def procFail500 : Article → ProcResult :=
  fun _ => { success := false, reason := "Request failed with status code 500" }

/-- A source article without an original URL (`null` in the store). -/
def sourceNoUrl : Article :=
  { title := "Chatbot Benefits", content := "<p>body</p>", excerpt := "",
    author := "", published_at := "", featured_image := "",
    original_url := "" }

/-- The derived article a successful run publishes for `sourceNoUrl`:
`original_url` is carried over, hence also absent. -/
def derivedNoUrl : Article :=
  { title := "Enhanced: Chatbot Benefits", content := "<p>body</p>",
    excerpt := "", author := "", published_at := "", featured_image := "",
    original_url := "" }

/-- A source article with an original URL. -/
def sourceWithUrl : Article :=
  { title := "Chatbot Benefits", content := "<p>body</p>", excerpt := "",
    author := "", published_at := "", featured_image := "",
    original_url := "https://source.example.com/p/1" }

/-- A second source article with a different title and URL. -/
def sourceSecond : Article :=
  { title := "Second Article", content := "<p>two</p>", excerpt := "",
    author := "", published_at := "", featured_image := "",
    original_url := "https://source.example.com/p/2" }

/-- The derived article of a previous run for `sourceWithUrl`. -/
def derivedWithUrl : Article :=
  { title := "Enhanced: Chatbot Benefits", content := "<p>body</p>",
    excerpt := "", author := "", published_at := "", featured_image := "",
    original_url := "https://source.example.com/p/1" }

/-- An environment whose discovery returns no candidates. -/
def envNoCompetitors : PipelineEnv :=
  { groqKey := some "gsk_key"
    search := fun _ => []
    scrape := fun _ => []
    gapLLM := Except.ok ""
    gapParse := fun _ => Except.error "parse"
    enhanceLLM := Except.ok ""
    parseURL := fun _ => none
    publish := fun _ => Except.ok { id := 1 } }

/-- An environment with working discovery and scraping but a missing
generative-service credential. -/
def envMissingKey : PipelineEnv :=
  { groqKey := none
    search := fun _ =>
      [{ title := "Competitor", url := "https://example.com/blog/a",
         snippet := "s" }]
    scrape := fun _ =>
      [{ title := "Competitor", url := "https://example.com/blog/a",
         snippet := "s", content := "text", htmlContent := "<p>text</p>",
         excerpt := "e", image_url := "" }]
    gapLLM := Except.ok "x"
    gapParse := fun _ => Except.error "boom"
    enhanceLLM := Except.ok "y"
    parseURL := fun _ => some "example.com"
    publish := fun _ => Except.ok { id := 7 } }

/-! Gap-analysis oracles used by counterexamples and witnesses. -/

/-- A parse oracle whose object has every field absent (the parse of an
empty JSON object). -/
def parseAllMissing : String → Except String AnalysisJson :=
  fun _ => Except.ok ⟨none, none, none, none, none, none⟩

/-- A parse oracle that fails, modelling a JSON.parse exception. -/
def parseFailBoom : String → Except String AnalysisJson :=
  fun _ => Except.error "Unexpected token"

/-- A parse oracle whose object carries only an in-range score. -/
def parseScoreSeven : String → Except String AnalysisJson :=
  fun _ => Except.ok ⟨none, none, none, none, some 7, none⟩

/-- A parse oracle whose object carries an out-of-range score. -/
def parseScoreFifteen : String → Except String AnalysisJson :=
  fun _ => Except.ok ⟨none, none, none, none, some 15, none⟩

/-! Citation-assembler instances. -/

/-- A URL-parse oracle that accepts everything with a fixed hostname. -/
def parseURLStub : String → Option String :=
  fun _ => some "example.com"

/-- A well-formed competitor document. -/
def witCompetitor : CompetitorDoc :=
  { title := "Comp", url := "https://example.com/blog/a", snippet := "snip",
    content := "text", htmlContent := "<p>text</p>", excerpt := "e",
    image_url := "" }

/-! Content-preservation instances. -/

/-- An article whose body itself contains an addition marker. -/
def sourceMarkedBody : Article :=
  { title := "T", content := "<mark>x</mark>", excerpt := "", author := "",
    published_at := "", featured_image := "",
    original_url := "https://source.example.com/p/9" }

/-- An article with a marker-free two-fragment body. -/
def sourceSplitBody : Article :=
  { title := "T", content := "AB", excerpt := "", author := "",
    published_at := "", featured_image := "",
    original_url := "https://source.example.com/p/9" }

/-- A witness article with a marker-free body of two paragraphs. -/
def witArticle : Article :=
  { title := "Chatbot Benefits", content := "<p>alpha</p><p>omega</p>",
    excerpt := "", author := "", published_at := "", featured_image := "",
    original_url := "https://source.example.com/p/1" }

/-- The witness generator output: the original two paragraphs with one
marked insertion between them. -/
def witGenerated : String :=
  "<p>alpha</p><mark><p>new insight</p></mark><p>omega</p>"

/-! ## Addition-marker lemmas -/

/-- The opening marker has no nontrivial self-overlap. -/
lemma markerOpen_no_overlap :
    ∀ j, 1 ≤ j → j < 6 → markerOpen.drop j ≠ markerOpen.take (6 - j) := by
  decide

/-- The closing marker has no nontrivial self-overlap. -/
lemma markerClose_no_overlap :
    ∀ j, 1 ≤ j → j < 7 → markerClose.drop j ≠ markerClose.take (7 - j) := by
  decide

/-- A nonempty marker-free list followed by the opening marker cannot
itself start with the opening marker. -/
lemma markerOpen_not_prefix_append {s r : List Char} (hne : s ≠ [])
    (hs : ¬ markerOpen <:+: s) :
    ¬ markerOpen <+: (s ++ markerOpen ++ r) := by
  have hmo : markerOpen.length = 6 := by decide
  rintro ⟨z, hz⟩
  rw [List.append_assoc] at hz
  by_cases hlen : 6 ≤ s.length
  · exact hs (List.IsPrefix.isInfix
      (List.prefix_of_prefix_length_le ⟨z, hz⟩ (s.prefix_append _)
        (by omega)))
  · have hj1 : 0 < s.length := List.length_pos.mpr hne
    have hdrop : markerOpen.drop s.length ++ z = markerOpen ++ r := by
      have h := congrArg (List.drop s.length) hz
      rwa [List.drop_append_of_le_length (by omega), List.drop_left] at h
    have hdp : markerOpen.drop s.length <+: markerOpen :=
      List.prefix_of_prefix_length_le ⟨z, hdrop⟩ (markerOpen.prefix_append r)
        (by rw [List.length_drop]; omega)
    have heq : markerOpen.drop s.length = markerOpen.take (6 - s.length) := by
      have h := List.prefix_iff_eq_take.mp hdp
      rwa [List.length_drop, hmo] at h
    exact markerOpen_no_overlap s.length hj1 (by omega) heq

/-- A nonempty close-marker-free list followed by the closing marker
cannot itself start with the closing marker. -/
lemma markerClose_not_prefix_append {s r : List Char} (hne : s ≠ [])
    (hs : ¬ markerClose <:+: s) :
    ¬ markerClose <+: (s ++ markerClose ++ r) := by
  have hmc : markerClose.length = 7 := by decide
  rintro ⟨z, hz⟩
  rw [List.append_assoc] at hz
  by_cases hlen : 7 ≤ s.length
  · exact hs (List.IsPrefix.isInfix
      (List.prefix_of_prefix_length_le ⟨z, hz⟩ (s.prefix_append _)
        (by omega)))
  · have hj1 : 0 < s.length := List.length_pos.mpr hne
    have hdrop : markerClose.drop s.length ++ z = markerClose ++ r := by
      have h := congrArg (List.drop s.length) hz
      rwa [List.drop_append_of_le_length (by omega), List.drop_left] at h
    have hdp : markerClose.drop s.length <+: markerClose :=
      List.prefix_of_prefix_length_le ⟨z, hdrop⟩ (markerClose.prefix_append r)
        (by rw [List.length_drop]; omega)
    have heq : markerClose.drop s.length = markerClose.take (7 - s.length) := by
      have h := List.prefix_iff_eq_take.mp hdp
      rwa [List.length_drop, hmc] at h
    exact markerClose_no_overlap s.length hj1 (by omega) heq

/-- Stripping a marker-free list copies it verbatim. -/
lemma stripAdditions_of_no_marker (s : List Char)
    (hs : ¬ markerOpen <:+: s) : stripAdditions s = s := by
  induction s with
  | nil => simp [stripAdditions]
  | cons c t ih =>
    rw [stripAdditions]
    rw [if_neg (fun h => hs h.isInfix)]
    rw [ih (fun h => hs (List.infix_cons h))]

/-- Stripping walks through a marker-free fragment and consumes the
opening marker that follows it. -/
lemma stripAdditions_append_marker (s r : List Char)
    (hs : ¬ markerOpen <:+: s) :
    stripAdditions (s ++ markerOpen ++ r) = s ++ skipAddition r := by
  induction s with
  | nil =>
    show stripAdditions ('<' :: 'm' :: 'a' :: 'r' :: 'k' :: '>' :: r) = _
    rw [stripAdditions, if_pos ⟨r, rfl⟩]
    rfl
  | cons c t ih =>
    have hmatch := markerOpen_not_prefix_append (s := c :: t)
      (by simp) hs (r := r)
    show stripAdditions (c :: (t ++ markerOpen ++ r)) = _
    rw [stripAdditions]
    rw [if_neg (by simpa [List.append_assoc] using hmatch)]
    rw [ih (fun h => hs (List.infix_cons h))]
    rfl

/-- Skipping walks through a close-marker-free insertion and consumes the
closing marker that follows it. -/
lemma skipAddition_append_marker (a r : List Char)
    (ha : ¬ markerClose <:+: a) :
    skipAddition (a ++ markerClose ++ r) = stripAdditions r := by
  induction a with
  | nil =>
    show skipAddition ('<' :: '/' :: 'm' :: 'a' :: 'r' :: 'k' :: '>' :: r) = _
    rw [skipAddition, if_pos ⟨r, rfl⟩]
    rfl
  | cons c t ih =>
    have hmatch := markerClose_not_prefix_append (s := c :: t)
      (by simp) ha (r := r)
    show skipAddition (c :: (t ++ markerClose ++ r)) = _
    rw [skipAddition]
    rw [if_neg (by simpa [List.append_assoc] using hmatch)]
    exact ih (fun h => ha (List.infix_cons h))

/-- Round trip at the character level: stripping the serialization of a
marked-insertions-only output recovers the original body, provided the
body is free of opening markers and every insertion is free of closing
markers. -/
lemma stripAdditions_renderInserted
    (parts : List (List Char × List Char)) (final : List Char)
    (hbody : ¬ markerOpen <:+: renderBody parts final)
    (hadds : ∀ pa ∈ parts, ¬ markerClose <:+: pa.2) :
    stripAdditions (renderInserted parts final) = renderBody parts final := by
  induction parts with
  | nil =>
    simp only [renderBody, List.map_nil, List.flatten_nil, List.nil_append]
      at hbody ⊢
    exact stripAdditions_of_no_marker final hbody
  | cons pa rest ih =>
    obtain ⟨p, a⟩ := pa
    have hbodyEq : renderBody ((p, a) :: rest) final =
        p ++ renderBody rest final := by
      simp [renderBody, List.append_assoc]
    have hp : ¬ markerOpen <:+: p := by
      intro h
      exact hbody (h.trans ⟨[], renderBody rest final, by rw [hbodyEq]; simp⟩)
    have hrest : ¬ markerOpen <:+: renderBody rest final := by
      intro h
      exact hbody (h.trans ⟨p, [], by rw [hbodyEq]; simp⟩)
    have ha : ¬ markerClose <:+: a := hadds (p, a) (by simp)
    calc stripAdditions (renderInserted ((p, a) :: rest) final)
        = stripAdditions
            (p ++ markerOpen ++ (a ++ markerClose ++ renderInserted rest final)) := by
          simp [renderInserted, List.append_assoc]
      _ = p ++ skipAddition (a ++ markerClose ++ renderInserted rest final) :=
          stripAdditions_append_marker p _ hp
      _ = p ++ stripAdditions (renderInserted rest final) := by
          rw [skipAddition_append_marker a _ ha]
      _ = p ++ renderBody rest final := by
          rw [ih hrest (fun q hq => hadds q (List.mem_cons_of_mem _ hq))]
      _ = renderBody ((p, a) :: rest) final := hbodyEq.symm

/-! ## Loop invariants of the batch orchestrator -/

@[simp] lemma stepSucc_success (a : Article) (st : RunState) :
    (stepSucc a st).success = st.success + 1 := rfl

@[simp] lemma stepSucc_failed (a : Article) (st : RunState) :
    (stepSucc a st).failed = st.failed := rfl

@[simp] lemma stepSucc_processedCount (a : Article) (st : RunState) :
    (stepSucc a st).processedCount = st.processedCount + 1 := rfl

@[simp] lemma stepSucc_published (a : Article) (st : RunState) :
    (stepSucc a st).published = st.published ++ [a.original_url] := rfl

@[simp] lemma stepFail_success (proc : Article → ProcResult)
    (arts : List Article) (a : Article) (i : Nat) (st : RunState) :
    (stepFail proc arts a i st).success = st.success := rfl

@[simp] lemma stepFail_failed (proc : Article → ProcResult)
    (arts : List Article) (a : Article) (i : Nat) (st : RunState) :
    (stepFail proc arts a i st).failed = st.failed + 1 := rfl

@[simp] lemma stepFail_processedCount (proc : Article → ProcResult)
    (arts : List Article) (a : Article) (i : Nat) (st : RunState) :
    (stepFail proc arts a i st).processedCount = st.processedCount + 1 := rfl

@[simp] lemma stepFail_published (proc : Article → ProcResult)
    (arts : List Article) (a : Article) (i : Nat) (st : RunState) :
    (stepFail proc arts a i st).published = st.published := rfl

@[simp] lemma stepFail_errors (proc : Article → ProcResult)
    (arts : List Article) (a : Article) (i : Nat) (st : RunState) :
    (stepFail proc arts a i st).errors =
      st.errors ++ [(titleAt arts i, (proc a).reason)] := rfl

/-- One unfolding step of the loop, with the branch conditions spelled
out. -/
lemma mainLoop_cons (proc : Article → ProcResult) (arts : List Article)
    (a : Article) (t : List Article) (i : Nat) (st : RunState) :
    mainLoop proc arts (a :: t) i st =
      if (proc a).success then
        (if st.success + 1 ≥ 10 then stepSucc a st
         else mainLoop proc arts t (i + 1) (stepSucc a st))
      else
        (if st.success ≥ 10 then stepFail proc arts a i st
         else mainLoop proc arts t (i + 1) (stepFail proc arts a i st)) := by
  by_cases h : (proc a).success <;>
    simp [mainLoop, stepSucc, stepFail, h]

/-- Each loop iteration increments exactly one of the success/failed
counters, and the processed count, by one: the counter sum moves in
lockstep with the processed count, also across an early cap stop. -/
lemma mainLoop_count (proc : Article → ProcResult) (arts : List Article) :
    ∀ (rest : List Article) (i : Nat) (st : RunState),
      (mainLoop proc arts rest i st).success +
          (mainLoop proc arts rest i st).failed + st.processedCount =
        st.success + st.failed + (mainLoop proc arts rest i st).processedCount := by
  intro rest
  induction rest with
  | nil => intro i st; simp [mainLoop]
  | cons a t ih =>
    intro i st
    rw [mainLoop_cons]
    by_cases h : (proc a).success
    · rw [if_pos h]
      by_cases hcap : st.success + 1 ≥ 10
      · rw [if_pos hcap]; simp; omega
      · rw [if_neg hcap]
        have := ih (i + 1) (stepSucc a st)
        simp at this ⊢
        omega
    · rw [if_neg h]
      by_cases hcap : st.success ≥ 10
      · rw [if_pos hcap]; simp; omega
      · rw [if_neg hcap]
        have := ih (i + 1) (stepFail proc arts a i st)
        simp at this ⊢
        omega

/-- The loop cannot succeed more often than it has items. -/
lemma mainLoop_success_le (proc : Article → ProcResult) (arts : List Article) :
    ∀ (rest : List Article) (i : Nat) (st : RunState),
      (mainLoop proc arts rest i st).success ≤ st.success + rest.length := by
  intro rest
  induction rest with
  | nil => intro i st; simp [mainLoop]
  | cons a t ih =>
    intro i st
    rw [mainLoop_cons]
    by_cases h : (proc a).success
    · rw [if_pos h]
      by_cases hcap : st.success + 1 ≥ 10
      · rw [if_pos hcap]; simp
      · rw [if_neg hcap]
        have := ih (i + 1) (stepSucc a st)
        simp at this ⊢
        omega
    · rw [if_neg h]
      by_cases hcap : st.success ≥ 10
      · rw [if_pos hcap]; simp
      · rw [if_neg hcap]
        have := ih (i + 1) (stepFail proc arts a i st)
        simp at this ⊢
        omega

/-- The published list only grows during the loop. -/
lemma mainLoop_published_mono (proc : Article → ProcResult)
    (arts : List Article) :
    ∀ (rest : List Article) (i : Nat) (st : RunState),
      st.published ⊆ (mainLoop proc arts rest i st).published := by
  intro rest
  induction rest with
  | nil => intro i st; simp [mainLoop]
  | cons a t ih =>
    intro i st
    rw [mainLoop_cons]
    by_cases h : (proc a).success
    · rw [if_pos h]
      by_cases hcap : st.success + 1 ≥ 10
      · rw [if_pos hcap]
        intro x hx
        simp [List.mem_append]
        exact Or.inl hx
      · rw [if_neg hcap]
        intro x hx
        refine ih (i + 1) (stepSucc a st) ?_
        simp [List.mem_append]
        exact Or.inl hx
    · rw [if_neg h]
      by_cases hcap : st.success ≥ 10
      · rw [if_pos hcap]
        intro x hx
        simpa using hx
      · rw [if_neg hcap]
        intro x hx
        exact ih (i + 1) (stepFail proc arts a i st) (by simpa using hx)

/-- When the loop ends with one success per remaining item, the
`original_url` of every remaining item was pushed to the published
list. -/
lemma mainLoop_published_of_all_success (proc : Article → ProcResult)
    (arts : List Article) :
    ∀ (rest : List Article) (i : Nat) (st : RunState),
      (mainLoop proc arts rest i st).success = st.success + rest.length →
      ∀ a ∈ rest, a.original_url ∈ (mainLoop proc arts rest i st).published := by
  intro rest
  induction rest with
  | nil => intro i st _ a ha; cases ha
  | cons b t ih =>
    intro i st hfull a ha
    rw [mainLoop_cons] at hfull ⊢
    by_cases h : (proc b).success
    · rw [if_pos h] at hfull ⊢
      by_cases hcap : st.success + 1 ≥ 10
      · rw [if_pos hcap] at hfull ⊢
        rw [stepSucc_success, List.length_cons] at hfull
        have ht : t = [] := List.length_eq_zero.mp (by omega)
        subst ht
        rcases List.mem_cons.mp ha with rfl | ha2
        · simp [List.mem_append]
        · cases ha2
      · rw [if_neg hcap] at hfull ⊢
        rcases List.mem_cons.mp ha with rfl | ha2
        · exact mainLoop_published_mono proc arts t (i + 1) (stepSucc a st)
            (by simp [List.mem_append])
        · refine ih (i + 1) (stepSucc b st) ?_ a ha2
          simp at hfull ⊢
          omega
    · rw [if_neg h] at hfull ⊢
      by_cases hcap : st.success ≥ 10
      · rw [if_pos hcap] at hfull ⊢
        rw [stepFail_success, List.length_cons] at hfull
        omega
      · rw [if_neg hcap] at hfull ⊢
        have hle := mainLoop_success_le proc arts t (i + 1)
          (stepFail proc arts b i st)
        simp at hfull hle
        omega

/-- When every remaining item fails and the cap has not been hit, the loop
processes all of them, fails all of them, and succeeds on none. -/
lemma mainLoop_all_fail (proc : Article → ProcResult) (arts : List Article) :
    ∀ (rest : List Article) (i : Nat) (st : RunState),
      (∀ a ∈ rest, (proc a).success = false) → st.success < 10 →
      (mainLoop proc arts rest i st).success = st.success ∧
        (mainLoop proc arts rest i st).failed = st.failed + rest.length ∧
        (mainLoop proc arts rest i st).processedCount =
          st.processedCount + rest.length := by
  intro rest
  induction rest with
  | nil => intro i st _ _; simp [mainLoop]
  | cons b t ih =>
    intro i st hfail hlt
    have hb : (proc b).success = false := hfail b (by simp)
    rw [mainLoop_cons, if_neg (by simp [hb]), if_neg (by omega)]
    have := ih (i + 1) (stepFail proc arts b i st)
      (fun a ha => hfail a (List.mem_cons_of_mem _ ha)) (by simpa)
    simp at this ⊢
    omega

/-! ## Run-level lemmas -/

/-- A run over a list whose every pending item fails succeeds zero times,
fails all of them, and processes all of them. -/
lemma runMain_all_fail (proc : Article → ProcResult) (articles : List Article)
    (enhancedFetch : Option (List Article))
    (h : ∀ a ∈ articlesToProcess articles enhancedFetch,
      (proc a).success = false) :
    (runMain proc articles enhancedFetch).success = 0 ∧
      (runMain proc articles enhancedFetch).failed =
        (articlesToProcess articles enhancedFetch).length ∧
      (runMain proc articles enhancedFetch).processedCount =
        (articlesToProcess articles enhancedFetch).length := by
  have h2 := mainLoop_all_fail proc articles
    (articlesToProcess articles enhancedFetch) 0 initialRunState h
    (by simp [initialRunState])
  simpa [runMain, initialRunState] using h2

/-- A dedup-empty run processes exactly the input list. -/
lemma articlesToProcess_empty_store (articles : List Article) :
    articlesToProcess articles (some []) = articles := by
  simp [articlesToProcess, dedupUrls]

/-- With an empty search result, `processArticle` returns the
no-competitors failure result. -/
lemma processArticle_no_search (env : PipelineEnv) (article : Article)
    (h0 : (env.search article.title).length = 0) :
    processArticle env article =
      { success := false, reason := "No competitors found" } := by
  simp [processArticle, h0]
  rfl

/-- With candidates but an empty scrape result, `processArticle` returns
the scraping failure result. -/
lemma processArticle_no_scrape (env : PipelineEnv) (article : Article)
    (h1 : (env.search article.title).length ≠ 0)
    (h2 : (env.scrape (env.search article.title)).length = 0) :
    processArticle env article =
      { success := false, reason := "Scraping failed" } := by
  simp [processArticle, h1, h2]
  rfl

/-- With a missing or placeholder credential and viable inputs,
`processArticle` catches the configuration error thrown by the gap
analysis and converts it into a per-item failure. -/
lemma processArticle_key_missing (env : PipelineEnv) (article : Article)
    (hkey : env.groqKey = none ∨ env.groqKey = some "" ∨
      env.groqKey = some "your_groq_api_key_here")
    (hsearch : (env.search article.title).length ≠ 0)
    (hscrape : (env.scrape (env.search article.title)).length ≠ 0) :
    processArticle env article = { success := false, reason := groqKeyError } := by
  have hinit : initializeClient env.groqKey = Except.error groqKeyError := by
    rcases hkey with h | h | h <;> simp [initializeClient, h]
  have hgap : performGapAnalysis env.groqKey env.gapLLM env.gapParse =
      Except.error groqKeyError := by
    unfold performGapAnalysis
    rw [hinit]
  simp [processArticle, hsearch, hscrape, hgap]
  rfl

/-! ## Discovery filtering lemmas -/

/-- A URL containing a social-media domain fails the article filter for
every title: the exclusion check runs first and is case-insensitive. -/
lemma isBlogOrArticle_social (url t : String)
    (h : "facebook.com".data <:+: url.data ∨
      "twitter.com".data <:+: url.data) :
    isBlogOrArticle url t = false := by
  have hx : excludePatterns.any (fun pat => jsIncludes (jsLower url) pat) = true := by
    rcases h with h | h
    · refine List.any_eq_true.mpr ⟨"facebook.com", by simp [excludePatterns], ?_⟩
      simp only [jsIncludes, decide_eq_true_eq]
      have h2 := h.map Char.toLower
      rw [show ("facebook.com".data.map Char.toLower) = "facebook.com".data
        from by decide] at h2
      exact h2
    · refine List.any_eq_true.mpr ⟨"twitter.com", by simp [excludePatterns], ?_⟩
      simp only [jsIncludes, decide_eq_true_eq]
      have h2 := h.map Char.toLower
      rw [show ("twitter.com".data.map Char.toLower) = "twitter.com".data
        from by decide] at h2
      exact h2
  simp [isBlogOrArticle, hx]

/-- Every candidate of the filtered provider results stems from a hit that
passed the article filter. -/
lemma mem_serpFilterResults {results : List RawResult} {count : Nat}
    {c : Candidate} (hc : c ∈ serpFilterResults results count) :
    ∃ r ∈ results, isBlogOrArticle r.link r.title = true ∧ c.url = r.link := by
  simp only [serpFilterResults, List.mem_map] at hc
  obtain ⟨r, hr, hmap⟩ := hc
  have hr1 := List.mem_of_mem_take hr
  have hr2 := List.mem_filter.mp hr1
  have hr3 := List.mem_filter.mp hr2.1
  exact ⟨r, hr3.1, hr3.2, by rw [← hmap]⟩

/-! ## Option-mapM lemmas for the citation assembler -/

/-- The fallible map over `Option`, on the empty list. -/
lemma mapM_option_nil {α β : Type} (f : α → Option β) :
    ([] : List α).mapM f = some [] := rfl

/-- The fallible map over `Option`, one unfolding step in bind form. -/
lemma mapM_option_cons {α β : Type} (f : α → Option β) (a : α) (t : List α) :
    (a :: t).mapM f =
      (f a).bind (fun b => (t.mapM f).bind (fun ys => some (b :: ys))) := by
  rw [List.mapM_cons]
  rfl

/-- A fallible map fails as soon as one element fails. -/
lemma mapM_option_none {α β : Type} (f : α → Option β) :
    ∀ l : List α, (∃ x ∈ l, f x = none) → l.mapM f = none := by
  intro l
  induction l with
  | nil =>
    rintro ⟨x, hx, -⟩
    cases hx
  | cons a t ih =>
    rintro ⟨x, hx, hfx⟩
    rw [mapM_option_cons]
    rcases List.mem_cons.mp hx with rfl | hx2
    · rw [hfx]
      rfl
    · cases hfa : f a with
      | none => rfl
      | some b =>
        rw [ih ⟨x, hx2, hfx⟩]
        rfl

/-- A successful fallible map keeps the length. -/
lemma mapM_option_length {α β : Type} (f : α → Option β) :
    ∀ (l : List α) (ys : List β), l.mapM f = some ys → ys.length = l.length := by
  intro l
  induction l with
  | nil =>
    intro ys h
    rw [mapM_option_nil] at h
    injection h with h2
    subst h2
    rfl
  | cons a t ih =>
    intro ys h
    rw [mapM_option_cons] at h
    cases hfa : f a with
    | none =>
      rw [hfa] at h
      simp at h
    | some b =>
      rw [hfa] at h
      cases hmt : t.mapM f with
      | none =>
        rw [hmt] at h
        simp at h
      | some zs =>
        rw [hmt] at h
        simp only [Option.some_bind, Option.some.injEq] at h
        subst h
        simp [ih zs hmt]

/-- A fallible map over elements that all succeed succeeds. -/
lemma mapM_option_total {α β : Type} (f : α → Option β) :
    ∀ l : List α, (∀ x ∈ l, (f x).isSome) → ∃ ys, l.mapM f = some ys := by
  intro l
  induction l with
  | nil => intro _; exact ⟨[], mapM_option_nil f⟩
  | cons a t ih =>
    intro h
    obtain ⟨b, hb⟩ := Option.isSome_iff_exists.mp (h a (by simp))
    obtain ⟨ys, hys⟩ := ih (fun x hx => h x (List.mem_cons_of_mem _ hx))
    refine ⟨b :: ys, ?_⟩
    rw [mapM_option_cons, hb, hys]
    rfl

/-! ## Claim theorems -/

/-- C3. Run-accounting identity: in every completed run, also one stopped
early by the success cap, the counters satisfy
succeeded + failed + skipped = items considered, where the considered
items are the dedup-skipped ones plus the ones the loop attempted, each
classified exactly once. -/
theorem run_accounting (proc : Article → ProcResult) (articles : List Article)
    (enhancedFetch : Option (List Article)) :
    (runMain proc articles enhancedFetch).success +
        (runMain proc articles enhancedFetch).failed +
        (runMain proc articles enhancedFetch).skipped =
      (runMain proc articles enhancedFetch).considered := by
  have h := mainLoop_count proc articles
    (articlesToProcess articles enhancedFetch) 0 initialRunState
  simp [runMain, RunSummary.considered, initialRunState] at h ⊢
  omega

/-- C2 (amended). Dedup idempotence for truthy dedup keys: an article
whose `original_url` is in the dedup set is excluded from processing; and
when every source article has a nonempty `original_url`, a fully
successful run publishes every `original_url`, so a second run over a
store that retains them in its updated set processes nothing and succeeds
zero times. Articles with an absent (empty) `original_url` are outside
the dedup mechanism. -/
theorem dedup_second_run (proc1 proc2 : Article → ProcResult)
    (articles store2 : List Article)
    (hurl : ∀ a ∈ articles, a.original_url ≠ "")
    (hfull : (runMain proc1 articles (some [])).success = articles.length)
    (hstore : ∀ u ∈ (runMain proc1 articles (some [])).published,
      u ≠ "" → u ∈ dedupUrls store2) :
    (∀ (arts : List Article) (a : Article),
      a.original_url ∈ dedupUrls store2 →
      a ∉ articlesToProcess arts (some store2)) ∧
    articlesToProcess articles (some store2) = [] ∧
    (runMain proc2 articles (some store2)).success = 0 ∧
    (runMain proc2 articles (some store2)).skipped = articles.length := by
  have hexcl : ∀ (arts : List Article) (a : Article),
      a.original_url ∈ dedupUrls store2 →
      a ∉ articlesToProcess arts (some store2) := by
    intro arts a hmem hin
    have h2 := (List.mem_filter.mp hin).2
    simp at h2
    exact h2 hmem
  have hcovers : ∀ a ∈ articles,
      a.original_url ∈ (runMain proc1 articles (some [])).published := by
    intro a ha
    have hfull2 : (mainLoop proc1 articles
        (articlesToProcess articles (some [])) 0 initialRunState).success =
        initialRunState.success +
          (articlesToProcess articles (some [])).length := by
      rw [articlesToProcess_empty_store]
      simpa [runMain, initialRunState, articlesToProcess_empty_store]
        using hfull
    have h3 := mainLoop_published_of_all_success proc1 articles
      (articlesToProcess articles (some [])) 0 initialRunState hfull2 a
      (by rwa [articlesToProcess_empty_store])
    simpa [runMain] using h3
  have hmem : ∀ a ∈ articles, a.original_url ∈ dedupUrls store2 :=
    fun a ha => hstore a.original_url (hcovers a ha) (hurl a ha)
  have htp2 : articlesToProcess articles (some store2) = [] := by
    rw [articlesToProcess]
    apply List.filter_eq_nil_iff.mpr
    intro a ha
    simp [hmem a ha]
  refine ⟨hexcl, htp2, ?_, ?_⟩
  · simp [runMain, htp2, mainLoop, initialRunState]
  · simp [runMain, htp2]

/-- C2, counterexample to the claim as stated: a source article without an
`original_url` is republished by a second run over the unchanged store
(the derived article also carries no `original_url`, so the dedup set
stays empty), and the second run succeeds once, not zero times. -/
theorem dedup_second_run_cex :
    (runMain procAlwaysOk [sourceNoUrl] (some [])).success = 1 ∧
    (runMain procAlwaysOk [sourceNoUrl] (some [])).published = [""] ∧
    (runMain procAlwaysOk [sourceNoUrl] (some [derivedNoUrl])).success = 1 := by
  decide

/-- C2, witness: a one-article store with a real `original_url`, fully
enhanced by the first run; the second run skips it and succeeds zero
times. -/
theorem dedup_second_run_witness :
    (∀ (arts : List Article) (a : Article),
      a.original_url ∈ dedupUrls [derivedWithUrl] →
      a ∉ articlesToProcess arts (some [derivedWithUrl])) ∧
    articlesToProcess [sourceWithUrl] (some [derivedWithUrl]) = [] ∧
    (runMain procAlwaysOk [sourceWithUrl] (some [derivedWithUrl])).success = 0 ∧
    (runMain procAlwaysOk [sourceWithUrl] (some [derivedWithUrl])).skipped =
      [sourceWithUrl].length :=
  dedup_second_run procAlwaysOk procAlwaysOk [sourceWithUrl] [derivedWithUrl]
    (by decide) (by decide) (by decide)

/-- C4 (amended). No-viable-input classification: an item with zero
discovered competitors or zero scraped documents yields an unsuccessful
result with the explicit reason, and the orchestrator counts every such
item in the failed counter (and failure list), not in the skipped
counter, which only counts dedup-excluded items. -/
theorem no_viable_input_failed (env : PipelineEnv) (article : Article)
    (h : (env.search article.title).length = 0 ∨
      ((env.search article.title).length ≠ 0 ∧
        (env.scrape (env.search article.title)).length = 0)) :
    ((processArticle env article).success = false ∧
      ((processArticle env article).reason = "No competitors found" ∨
        (processArticle env article).reason = "Scraping failed")) ∧
    ∀ (articles : List Article) (enhancedFetch : Option (List Article)),
      (∀ a ∈ articlesToProcess articles enhancedFetch,
        (env.search a.title).length = 0) →
      (runMain (processArticle env) articles enhancedFetch).failed =
          (articlesToProcess articles enhancedFetch).length ∧
        (runMain (processArticle env) articles enhancedFetch).success = 0 ∧
        (runMain (processArticle env) articles enhancedFetch).skipped =
          articles.length - (articlesToProcess articles enhancedFetch).length := by
  constructor
  · rcases h with h0 | ⟨h1, h2⟩
    · rw [processArticle_no_search env article h0]
      exact ⟨rfl, Or.inl rfl⟩
    · rw [processArticle_no_scrape env article h1 h2]
      exact ⟨rfl, Or.inr rfl⟩
  · intro articles enhancedFetch hall
    have hfail : ∀ a ∈ articlesToProcess articles enhancedFetch,
        (processArticle env a).success = false := by
      intro a ha
      rw [processArticle_no_search env a (hall a ha)]
    have h3 := runMain_all_fail (processArticle env) articles enhancedFetch hfail
    exact ⟨h3.2.1, h3.1, by simp [runMain]⟩

/-- C4, counterexample to the claim as stated: one article, discovery
returns zero candidates; the run records it as failed (with the reason in
the failure list) and the skipped counter stays zero. -/
theorem no_viable_input_cex :
    (runMain (processArticle envNoCompetitors) [sourceWithUrl] (some [])).failed = 1 ∧
    (runMain (processArticle envNoCompetitors) [sourceWithUrl] (some [])).skipped = 0 ∧
    (runMain (processArticle envNoCompetitors) [sourceWithUrl] (some [])).errors =
      [("Chatbot Benefits", "No competitors found")] := by
  decide

/-- C4, witness: the amended theorem applied to a concrete
zero-candidate environment and a one-article store. -/
theorem no_viable_input_witness :
    ((processArticle envNoCompetitors sourceWithUrl).success = false ∧
      ((processArticle envNoCompetitors sourceWithUrl).reason = "No competitors found" ∨
        (processArticle envNoCompetitors sourceWithUrl).reason = "Scraping failed")) ∧
    ∀ (articles : List Article) (enhancedFetch : Option (List Article)),
      (∀ a ∈ articlesToProcess articles enhancedFetch,
        (envNoCompetitors.search a.title).length = 0) →
      (runMain (processArticle envNoCompetitors) articles enhancedFetch).failed =
          (articlesToProcess articles enhancedFetch).length ∧
        (runMain (processArticle envNoCompetitors) articles enhancedFetch).success = 0 ∧
        (runMain (processArticle envNoCompetitors) articles enhancedFetch).skipped =
          articles.length - (articlesToProcess articles enhancedFetch).length :=
  no_viable_input_failed envNoCompetitors sourceWithUrl (Or.inl rfl)

/-- C5 (amended). Missing or placeholder credential: the error is thrown
at first use inside each item, but the per-item catch converts it into a
failure result for that item, so the run is not aborted: every pending
item is processed and fails in turn with the same configuration-error
reason. -/
theorem config_error_per_item (env : PipelineEnv)
    (hkey : env.groqKey = none ∨ env.groqKey = some "" ∨
      env.groqKey = some "your_groq_api_key_here") :
    (∀ article : Article,
      (env.search article.title).length ≠ 0 →
      (env.scrape (env.search article.title)).length ≠ 0 →
      processArticle env article =
        { success := false, reason := groqKeyError }) ∧
    ∀ articles : List Article,
      (∀ a ∈ articlesToProcess articles none,
        (env.search a.title).length ≠ 0 ∧
          (env.scrape (env.search a.title)).length ≠ 0) →
      (runMain (processArticle env) articles none).processedCount =
          (articlesToProcess articles none).length ∧
        (runMain (processArticle env) articles none).failed =
          (articlesToProcess articles none).length ∧
        (runMain (processArticle env) articles none).success = 0 := by
  constructor
  · intro article hsearch hscrape
    exact processArticle_key_missing env article hkey hsearch hscrape
  · intro articles hall
    have hfail : ∀ a ∈ articlesToProcess articles none,
        (processArticle env a).success = false := by
      intro a ha
      rw [processArticle_key_missing env a hkey (hall a ha).1 (hall a ha).2]
    have h3 := runMain_all_fail (processArticle env) articles none hfail
    exact ⟨h3.2.2, h3.2.1, h3.1⟩

/-- C5, counterexample to the claim as stated: with a missing credential
and two viable articles, the run does not abort after the first item: it
processes both, counts both as failed, and records the configuration
error as each item reason. -/
theorem config_error_cex :
    (runMain (processArticle envMissingKey) [sourceWithUrl, sourceSecond]
        (some [])).processedCount = 2 ∧
    (runMain (processArticle envMissingKey) [sourceWithUrl, sourceSecond]
        (some [])).failed = 2 ∧
    (runMain (processArticle envMissingKey) [sourceWithUrl, sourceSecond]
        (some [])).errors =
      [("Chatbot Benefits", groqKeyError), ("Second Article", groqKeyError)] := by
  decide

/-- C5, witness: the amended theorem applied to the concrete
missing-credential environment and a one-article store. -/
theorem config_error_witness :
    processArticle envMissingKey sourceWithUrl =
      { success := false, reason := groqKeyError } ∧
    (runMain (processArticle envMissingKey) [sourceWithUrl] none).failed =
      (articlesToProcess [sourceWithUrl] none).length :=
  have h := config_error_per_item envMissingKey (Or.inl rfl)
  ⟨h.1 sourceWithUrl (by decide) (by decide),
    ((h.2 [sourceWithUrl]) (by decide)).2.1⟩

/-- C9. Failure-report title slip, evaluated at the failing input: the
first article is dedup-excluded, only the second is processed and fails,
yet the failure list pairs the failure reason with the first article
title, because the push reads `articles[i]` instead of
`articlesToProcess[i]`. -/
theorem failure_title_mismatch :
    articlesToProcess [sourceWithUrl, sourceSecond] (some [derivedWithUrl]) =
      [sourceSecond] ∧
    (runMain procFail500 [sourceWithUrl, sourceSecond]
        (some [derivedWithUrl])).failed = 1 ∧
    (runMain procFail500 [sourceWithUrl, sourceSecond]
        (some [derivedWithUrl])).errors =
      [("Chatbot Benefits", "Request failed with status code 500")] ∧
    sourceSecond.title = "Second Article" := by
  decide

/-- C6 (amended). Gap-analysis defaulting: once the client initialized,
`performGapAnalysis` always returns a result (never throws). On an
upstream failure or a parse failure it returns the default structure:
`missing` is a one-element placeholder list, the other lists are empty,
the score is 0 and the caught message is attached as the error marker.
When parsing succeeds, absent list fields default to empty, an absent
score defaults to 5, and no error marker is attached. -/
theorem gap_analysis_defaults (key : Option String)
    (llm : Except String String)
    (parse : String → Except String AnalysisJson)
    (hkey : initializeClient key = Except.ok ()) :
    ∃ r, performGapAnalysis key llm parse = Except.ok r ∧
      (∀ e, llm = Except.error e → r = gapDefaultResult e) ∧
      (∀ raw e, llm = Except.ok raw →
        parse (cleanLLMJson raw) = Except.error e → r = gapDefaultResult e) ∧
      (∀ raw a, llm = Except.ok raw → parse (cleanLLMJson raw) = Except.ok a →
        r = gapSuccessResult a ∧
        (a.missing = none → r.missing = []) ∧
        (a.improve = none → r.improve = []) ∧
        (a.strengths = none → r.strengths = []) ∧
        (a.keywords_missing = none → r.keywords_missing = []) ∧
        (a.recommendations = none → r.recommendations = []) ∧
        (a.overall_score = none → r.overall_score = 5) ∧
        r.error = none) := by
  cases llm with
  | error e =>
    refine ⟨gapDefaultResult e, ?_, ?_, ?_, ?_⟩
    · unfold performGapAnalysis
      rw [hkey]
    · intro e2 he
      injection he with h
      subst h
      rfl
    · intro raw e2 hraw hparse
      exact absurd hraw (by simp)
    · intro raw a hraw hparse
      exact absurd hraw (by simp)
  | ok raw =>
    cases hp : parse (cleanLLMJson raw) with
    | error e =>
      refine ⟨gapDefaultResult e, ?_, ?_, ?_, ?_⟩
      · unfold performGapAnalysis
        rw [hkey]
        show (match parse (cleanLLMJson raw) with
          | Except.error e => Except.ok (gapDefaultResult e)
          | Except.ok a => Except.ok (gapSuccessResult a)) =
          Except.ok (gapDefaultResult e)
        rw [hp]
      · intro e2 he
        exact absurd he (by simp)
      · intro raw2 e2 hraw hparse
        injection hraw with h1
        subst h1
        rw [hp] at hparse
        injection hparse with h2
        subst h2
        rfl
      · intro raw2 a hraw hparse
        injection hraw with h1
        subst h1
        rw [hp] at hparse
        exact absurd hparse (by simp)
    | ok a =>
      refine ⟨gapSuccessResult a, ?_, ?_, ?_, ?_⟩
      · unfold performGapAnalysis
        rw [hkey]
        show (match parse (cleanLLMJson raw) with
          | Except.error e => Except.ok (gapDefaultResult e)
          | Except.ok a => Except.ok (gapSuccessResult a)) =
          Except.ok (gapSuccessResult a)
        rw [hp]
      · intro e2 he
        exact absurd he (by simp)
      · intro raw2 e2 hraw hparse
        injection hraw with h1
        subst h1
        rw [hp] at hparse
        exact absurd hparse (by simp)
      · intro raw2 a2 hraw hparse
        injection hraw with h1
        subst h1
        rw [hp] at hparse
        injection hparse with h2
        subst h2
        refine ⟨rfl, ?_, ?_, ?_, ?_, ?_, ?_, rfl⟩ <;> intro hnone <;>
          simp [gapSuccessResult, jsOrList, jsOrScore, hnone]

/-- C6, counterexample to the claim as stated: a response that parses to
an object with every field missing yields a score of 5 (not 0) and no
error marker; and a parse failure yields a `missing` list holding a
placeholder message, not the empty list. -/
theorem gap_analysis_defaults_cex :
    performGapAnalysis (some "gsk_key") (Except.ok "not json") parseAllMissing =
      Except.ok
        { missing := [], improve := [], strengths := [],
          keywords_missing := [], overall_score := 5,
          recommendations := [], error := none } ∧
    (5 : Int) ≠ 0 ∧
    performGapAnalysis (some "gsk_key") (Except.ok "raw") parseFailBoom =
      Except.ok (gapDefaultResult "Unexpected token") ∧
    (gapDefaultResult "Unexpected token").missing ≠ [] := by
  exact ⟨rfl, by decide, rfl, by decide⟩

/-- C6, witness: the amended theorem applied to a valid key and a
response parsing to an all-missing-fields object. -/
theorem gap_analysis_defaults_witness :
    ∃ r, performGapAnalysis (some "gsk_key") (Except.ok "not json")
        parseAllMissing = Except.ok r ∧
      r = gapSuccessResult ⟨none, none, none, none, none, none⟩ ∧
      r.overall_score = 5 ∧ r.error = none := by
  obtain ⟨r, hr, -, -, h4⟩ := gap_analysis_defaults (some "gsk_key")
    (Except.ok "not json") parseAllMissing (by rfl)
  obtain ⟨heq, -, -, -, -, -, hscore, herr⟩ :=
    h4 "not json" ⟨none, none, none, none, none, none⟩ rfl rfl
  exact ⟨r, hr, heq, hscore rfl, herr⟩

/-- C7 (amended). Score passthrough: the score is 0 in every failure
mode and 5 when the parsed score is absent or zero; a present parsed
score is passed through without clamping, so the result score lies in
[0, 10] exactly under the assumption that every parsed score does. -/
theorem gap_score_range (key : Option String) (llm : Except String String)
    (parse : String → Except String AnalysisJson)
    (hkey : initializeClient key = Except.ok ())
    (hscore : ∀ raw a v, llm = Except.ok raw →
      parse (cleanLLMJson raw) = Except.ok a → a.overall_score = some v →
      0 ≤ v ∧ v ≤ 10) :
    ∀ r, performGapAnalysis key llm parse = Except.ok r →
      0 ≤ r.overall_score ∧ r.overall_score ≤ 10 := by
  cases llm with
  | error e =>
    intro r hr
    have hval : performGapAnalysis key (Except.error e) parse =
        Except.ok (gapDefaultResult e) := by
      unfold performGapAnalysis
      rw [hkey]
    rw [hval] at hr
    injection hr with h
    subst h
    exact ⟨le_refl 0, by norm_num [gapDefaultResult]⟩
  | ok raw =>
    cases hp : parse (cleanLLMJson raw) with
    | error e =>
      intro r hr
      have hval : performGapAnalysis key (Except.ok raw) parse =
          Except.ok (gapDefaultResult e) := by
        unfold performGapAnalysis
        rw [hkey]
        show (match parse (cleanLLMJson raw) with
          | Except.error e => Except.ok (gapDefaultResult e)
          | Except.ok a => Except.ok (gapSuccessResult a)) =
          Except.ok (gapDefaultResult e)
        rw [hp]
      rw [hval] at hr
      injection hr with h
      subst h
      exact ⟨le_refl 0, by norm_num [gapDefaultResult]⟩
    | ok a =>
      intro r hr
      have hval : performGapAnalysis key (Except.ok raw) parse =
          Except.ok (gapSuccessResult a) := by
        unfold performGapAnalysis
        rw [hkey]
        show (match parse (cleanLLMJson raw) with
          | Except.error e => Except.ok (gapDefaultResult e)
          | Except.ok a => Except.ok (gapSuccessResult a)) =
          Except.ok (gapSuccessResult a)
        rw [hp]
      rw [hval] at hr
      injection hr with h
      subst h
      show 0 ≤ jsOrScore a.overall_score 5 ∧ jsOrScore a.overall_score 5 ≤ 10
      cases ho : a.overall_score with
      | none => simp [jsOrScore]
      | some v =>
        have hv := hscore raw a v rfl hp ho
        by_cases hz : v = 0
        · simp [jsOrScore, hz]
        · simp only [jsOrScore, hz, if_false]
          omega

/-- C7, counterexample to the claim as stated: a response whose parsed
score is 15 is passed through unclamped, so the produced score is
outside [0, 10]. -/
theorem gap_score_range_cex :
    performGapAnalysis (some "gsk_key") (Except.ok "x") parseScoreFifteen =
      Except.ok
        { missing := [], improve := [], strengths := [],
          keywords_missing := [], overall_score := 15,
          recommendations := [], error := none } ∧
    ¬ ((15 : Int) ≤ 10) := by
  exact ⟨rfl, by decide⟩

/-- C7, witness: the amended theorem applied to a parse oracle with an
in-range score 7. -/
theorem gap_score_range_witness :
    0 ≤ (gapSuccessResult ⟨none, none, none, none, some 7, none⟩).overall_score ∧
      (gapSuccessResult ⟨none, none, none, none, some 7, none⟩).overall_score ≤ 10 :=
  gap_score_range (some "gsk_key") (Except.ok "x") parseScoreSeven (by rfl)
    (by
      intro raw a v hraw hparse hs
      injection hparse with h
      subst h
      simp at hs
      omega)
    (gapSuccessResult ⟨none, none, none, none, some 7, none⟩) (by rfl)

/-- C8. Discovery filtering: a candidate whose URL contains a known
social-media domain (facebook.com or twitter.com) is rejected by the
article filter and excluded from the filtered provider results; a
candidate whose URL contains the article-shaped segment `/blog` and no
exclusion pattern passes the filter and may be included (it is included
whenever it also avoids the own-domain exclusion). -/
theorem discovery_filtering (url title : String) :
    (("facebook.com".data <:+: url.data ∨ "twitter.com".data <:+: url.data) →
      isBlogOrArticle url title = false ∧
      ∀ (results : List RawResult) (count : Nat),
        ∀ c ∈ serpFilterResults results count, c.url ≠ url) ∧
    (("/blog".data <:+: (jsLower url).data ∧
        ∀ pat ∈ excludePatterns, ¬ pat.data <:+: (jsLower url).data) →
      isBlogOrArticle url title = true ∧
      (¬ "beyondchats.com".data <:+: (jsLower url).data →
        ∀ snip : String,
          ({ title := title, url := url, snippet := snip } : Candidate) ∈
            serpFilterResults
              [{ title := title, link := url, snippet := some snip }] 1)) := by
  constructor
  · intro h
    refine ⟨isBlogOrArticle_social url title h, ?_⟩
    intro results count c hc hurl
    obtain ⟨r, hr, hblog, hcu⟩ := mem_serpFilterResults hc
    have hru : r.link = url := by rw [← hcu, hurl]
    rw [hru, isBlogOrArticle_social url r.title h] at hblog
    exact absurd hblog (by simp)
  · rintro ⟨hblog, hexcl⟩
    have hfalse : excludePatterns.any
        (fun pat => jsIncludes (jsLower url) pat) = false := by
      refine List.any_eq_false.mpr ?_
      intro pat hp
      simp only [jsIncludes, decide_eq_true_eq]
      exact hexcl pat hp
    have htrue : includePatterns.any
        (fun pat => jsIncludes (jsLower url) pat) = true := by
      refine List.any_eq_true.mpr ⟨"/blog", by simp [includePatterns], ?_⟩
      simpa [jsIncludes] using hblog
    have hart : isBlogOrArticle url title = true := by
      simp [isBlogOrArticle, hfalse, htrue]
    refine ⟨hart, ?_⟩
    intro hbc snip
    simp [serpFilterResults, hart, jsIncludes, hbc]

/-- C8, witness: a Facebook URL is filtered out; an external `/blog` URL
passes and is included in the filtered results. -/
theorem discovery_filtering_witness :
    isBlogOrArticle "https://facebook.com/groups/42" "Ten ways to chat" = false ∧
    isBlogOrArticle "https://example.com/blog/chatbots" "Chatbot guide" = true ∧
    ({ title := "Chatbot guide", url := "https://example.com/blog/chatbots",
        snippet := "s" } : Candidate) ∈
      serpFilterResults
        [{ title := "Chatbot guide", link := "https://example.com/blog/chatbots",
           snippet := some "s" }] 1 := by
  refine ⟨((discovery_filtering "https://facebook.com/groups/42"
      "Ten ways to chat").1 (Or.inl (by decide))).1, ?_, ?_⟩
  · exact ((discovery_filtering "https://example.com/blog/chatbots"
      "Chatbot guide").2 ⟨by decide, by decide⟩).1
  · exact ((discovery_filtering "https://example.com/blog/chatbots"
      "Chatbot guide").2 ⟨by decide, by decide⟩).2 (by decide) "s"

/-- C10. Citation assembler totality: the empty competitor list yields the
empty string; a list containing a competitor whose URL the URL
constructor rejects makes `generateCitations` throw; and when every URL
parses, it is total and builds exactly one citation card per
competitor. -/
theorem citation_totality (parse : String → Option String)
    (competitors : List CompetitorDoc) :
    (competitors = [] → generateCitations parse competitors = some "") ∧
    ((∃ c ∈ competitors, parse c.url = none) →
      generateCitations parse competitors = none) ∧
    (∀ (first : CompetitorDoc) (rest : List CompetitorDoc),
      competitors = first :: rest →
      (∀ c ∈ competitors, (parse c.url).isSome) →
      ∃ cards : List String,
        competitors.mapM (citationCard parse) = some cards ∧
        cards.length = competitors.length ∧
        generateCitations parse competitors =
          some (citationSectionHtml cards first)) := by
  refine ⟨?_, ?_, ?_⟩
  · intro h
    subst h
    rfl
  · rintro ⟨c, hc, hpc⟩
    cases competitors with
    | nil => cases hc
    | cons first rest =>
      have hm : (first :: rest).mapM (citationCard parse) = none :=
        mapM_option_none _ _ ⟨c, hc, by simp [citationCard, hpc]⟩
      calc generateCitations parse (first :: rest)
          = ((first :: rest).mapM (citationCard parse)).map
              (fun cards => citationSectionHtml cards first) := rfl
        _ = none := by rw [hm]; rfl
  · rintro first rest rfl hall
    obtain ⟨cards, hcards⟩ := mapM_option_total (citationCard parse)
      (first :: rest)
      (fun c hc => by
        simpa [citationCard] using hall c hc)
    refine ⟨cards, hcards, mapM_option_length _ _ cards hcards, ?_⟩
    calc generateCitations parse (first :: rest)
        = ((first :: rest).mapM (citationCard parse)).map
            (fun cs => citationSectionHtml cs first) := rfl
      _ = some (citationSectionHtml cards first) := by rw [hcards]; rfl

/-- C10, witness: one competitor with a parsing URL yields exactly one
citation card and a rendered section. -/
theorem citation_totality_witness :
    ∃ cards : List String,
      [witCompetitor].mapM (citationCard parseURLStub) = some cards ∧
      cards.length = [witCompetitor].length ∧
      generateCitations parseURLStub [witCompetitor] =
        some (citationSectionHtml cards witCompetitor) :=
  (citation_totality parseURLStub [witCompetitor]).2.2 witCompetitor [] rfl
    (by decide)

/-- C1 (amended). Content preservation round trip: `enhanceArticle`
passes the generator output through unmodified, so for every generator
output that only inserts marker-wrapped paragraphs between fragments of
the original body, stripping all addition-marker segments reproduces the
original body exactly — provided the original body contains no opening
marker and no inserted paragraph contains a closing marker. -/
theorem content_preservation (key : Option String) (article : Article)
    (generated : String) (parts : List (List Char × List Char))
    (final : List Char)
    (hkey : initializeClient key = Except.ok ())
    (hgen : generated.data = renderInserted parts final)
    (hsrc : article.content.data = renderBody parts final)
    (hclean : ¬ markerOpen <:+: article.content.data)
    (hadds : ∀ pa ∈ parts, ¬ markerClose <:+: pa.2) :
    ∃ res, enhanceArticle key (Except.ok generated) article = Except.ok res ∧
      res.content = generated ∧
      stripAdditions res.content.data = article.content.data := by
  have henh : enhanceArticle key (Except.ok generated) article =
      Except.ok
        { content := generated
          title := jsOrString (extractTitle generated)
            ("Enhanced: " ++ article.title) } := by
    unfold enhanceArticle
    rw [hkey]
  refine ⟨_, henh, rfl, ?_⟩
  show stripAdditions generated.data = article.content.data
  rw [hgen, hsrc]
  exact stripAdditions_renderInserted parts final (hsrc ▸ hclean) hadds

/-- C1, counterexample to the claim as stated: without the marker-freedom
side conditions the round trip fails. First, a body that itself contains
`<mark>x</mark>` with a generator that inserts nothing: stripping removes
original text. Second, a marker-free body `AB` with one inserted
paragraph that contains `</mark>`: stripping leaves insertion residue. -/
theorem content_preservation_cex :
    (∃ res, enhanceArticle (some "gsk_key") (Except.ok "<mark>x</mark>")
        sourceMarkedBody = Except.ok res ∧
      res.content = sourceMarkedBody.content ∧
      stripAdditions res.content.data ≠ sourceMarkedBody.content.data) ∧
    (∃ res, enhanceArticle (some "gsk_key")
        (Except.ok "A<mark>x</mark>y</mark>B") sourceSplitBody =
        Except.ok res ∧
      res.content.data =
        renderInserted [("A".data, "x</mark>y".data)] "B".data ∧
      stripAdditions res.content.data ≠ sourceSplitBody.content.data) := by
  constructor
  · refine ⟨_, rfl, rfl, ?_⟩
    show stripAdditions "<mark>x</mark>".data ≠ "<mark>x</mark>".data
    simp +decide [stripAdditions, skipAddition]
  · refine ⟨_, rfl, by decide, ?_⟩
    show stripAdditions "A<mark>x</mark>y</mark>B".data ≠ "AB".data
    simp +decide [stripAdditions, skipAddition]

/-- C1, witness: a two-paragraph body, one marked insertion between the
paragraphs; stripping the enhancer output reproduces the body. -/
theorem content_preservation_witness :
    ∃ res, enhanceArticle (some "gsk_key") (Except.ok witGenerated)
        witArticle = Except.ok res ∧
      res.content = witGenerated ∧
      stripAdditions res.content.data = witArticle.content.data :=
  content_preservation (some "gsk_key") witArticle witGenerated
    [("<p>alpha</p>".data, "<p>new insight</p>".data)] "<p>omega</p>".data
    (by rfl) (by decide) (by decide) (by decide) (by decide)

end BeyondChats

